import Mathlib

/-!
Shallow embedding of the Lyftr webhook ingestion service (Bun + TypeScript +
Express, `app/` sources) and proofs about the claims of its specification.

Conventions of the embedding:
* TypeScript strings are `String`; `null`/`undefined` values are `Option`.
  JavaScript string truthiness (`!s` is true for both `null` and `""`) is
  modelled by `jsTruthy`.
* The SQLite `messages` table is a `List Row` in insertion order; SQL
  `ORDER BY` is modelled by `List.insertionSort` (a sorted permutation,
  which is all SQLite guarantees).
* JavaScript numbers reaching the query parser are modelled as `ℚ`
  (`none` standing for `NaN`); every latency observation is a `ℚ`.
* `node:crypto`'s HMAC-SHA256 is implemented in full (`sha256`,
  `hmacSha256`) over the UTF-8 bytes of the inputs, so that signature
  checks are genuinely executable.
-/

/-! ## Security: `app/security.ts` -/

/-- Truncation of a natural number to a 32-bit word. -/
def w32 (n : Nat) : Nat := n % 4294967296

/-- Addition modulo 2^32. -/
def add32 (a b : Nat) : Nat := (a + b) % 4294967296

/-- Rotate a 32-bit word right by `k`. -/
def rotr32 (k n : Nat) : Nat := w32 ((n >>> k) ||| (n <<< (32 - k)))

/-- SHA-256 Σ0. -/
def bigSigma0 (x : Nat) : Nat := rotr32 2 x ^^^ rotr32 13 x ^^^ rotr32 22 x

/-- SHA-256 Σ1. -/
def bigSigma1 (x : Nat) : Nat := rotr32 6 x ^^^ rotr32 11 x ^^^ rotr32 25 x

/-- SHA-256 σ0. -/
def smallSigma0 (x : Nat) : Nat := rotr32 7 x ^^^ rotr32 18 x ^^^ (x >>> 3)

/-- SHA-256 σ1. -/
def smallSigma1 (x : Nat) : Nat := rotr32 17 x ^^^ rotr32 19 x ^^^ (x >>> 10)

/-- SHA-256 Ch, with the 32-bit complement spelled as xor with `0xffffffff`. -/
def shaCh (x y z : Nat) : Nat := (x &&& y) ^^^ ((x ^^^ 4294967295) &&& z)

/-- SHA-256 Maj. -/
def shaMaj (x y z : Nat) : Nat := (x &&& y) ^^^ (x &&& z) ^^^ (y &&& z)

/-- SHA-256 round constants. -/
def shaK : List Nat :=
  [1116352408, 1899447441, 3049323471, 3921009573, 961987163, 1508970993,
   2453635748, 2870763221, 3624381080, 310598401, 607225278, 1426881987,
   1925078388, 2162078206, 2614888103, 3248222580, 3835390401, 4022224774,
   264347078, 604807628, 770255983, 1249150122, 1555081692, 1996064986,
   2554220882, 2821834349, 2952996808, 3210313671, 3336571891, 3584528711,
   113926993, 338241895, 666307205, 773529912, 1294757372, 1396182291,
   1695183700, 1986661051, 2177026350, 2456956037, 2730485921, 2820302411,
   3259730800, 3345764771, 3516065817, 3600352804, 4094571909, 275423344,
   430227734, 506948616, 659060556, 883997877, 958139571, 1322822218,
   1537002063, 1747873779, 1955562222, 2024104815, 2227730452, 2361852424,
   2428436474, 2756734187, 3204031479, 3329325298]

/-- SHA-256 initial hash state. -/
def shaH0 : List Nat :=
  [1779033703, 3144134277, 1013904242, 2773480762,
   1359893119, 2600822924, 528734635, 1541459225]

/-- Big-endian 8-byte encoding of a (64-bit) length. -/
def be64 (n : Nat) : List Nat :=
  (List.range 8).map (fun i => (n >>> (56 - 8 * i)) % 256)

/-- SHA-256 padding: `0x80`, zeros to 56 mod 64, then the bit length. -/
def padMessage (msg : List Nat) : List Nat :=
  msg ++ [128] ++ List.replicate ((119 - (msg.length % 64)) % 64) 0 ++ be64 (8 * msg.length)

/-- Split a byte list into 64-byte blocks (fuel-driven so it reduces in the kernel). -/
def chunks64 : Nat → List Nat → List (List Nat)
  | 0, _ => []
  | _, [] => []
  | fuel + 1, l => l.take 64 :: chunks64 fuel (l.drop 64)

/-- Big-endian 32-bit word from the first four bytes of a list. -/
def beWord : List Nat → Nat
  | b0 :: b1 :: b2 :: b3 :: _ => (b0 <<< 24) ||| (b1 <<< 16) ||| (b2 <<< 8) ||| b3
  | _ => 0

/-- Extend a 16-word SHA-256 message schedule by `k` further words. -/
def extendW : Nat → List Nat → List Nat
  | 0, ws => ws
  | k + 1, ws =>
    let i := ws.length
    let nw := add32 (add32 (smallSigma1 (ws.getD (i - 2) 0)) (ws.getD (i - 7) 0))
                    (add32 (smallSigma0 (ws.getD (i - 15) 0)) (ws.getD (i - 16) 0))
    extendW k (ws ++ [nw])

/-- One SHA-256 round on the eight-word working state. -/
def shaRound (st : List Nat) (kw : Nat × Nat) : List Nat :=
  match st with
  | [a, b, c, d, e, f, g, h] =>
    let t1 := add32 (add32 (add32 h (bigSigma1 e)) (add32 (shaCh e f g) kw.1)) kw.2
    let t2 := add32 (bigSigma0 a) (shaMaj a b c)
    [add32 t1 t2, a, b, c, add32 d t1, e, f, g]
  | st => st

/-- Compress one 64-byte block into the hash state. -/
def shaCompressBlock (hs : List Nat) (block : List Nat) : List Nat :=
  let w := extendW 48 ((List.range 16).map (fun i => beWord (block.drop (4 * i))))
  let st := (List.zip shaK w).foldl shaRound hs
  (List.zip hs st).map (fun p => add32 p.1 p.2)

/-- Big-endian bytes of a 32-bit word. -/
def wordBytes (wd : Nat) : List Nat :=
  [(wd >>> 24) % 256, (wd >>> 16) % 256, (wd >>> 8) % 256, wd % 256]

/-- SHA-256 of a byte list. -/
def sha256 (msg : List Nat) : List Nat :=
  let padded := padMessage msg
  let blocks := chunks64 (padded.length / 64 + 1) padded
  ((blocks.foldl shaCompressBlock shaH0).map wordBytes).flatten

/-- UTF-8 encoding of one character. -/
def utf8EncodeChar (c : Char) : List Nat :=
  let n := c.toNat
  if n < 128 then [n]
  else if n < 2048 then [192 ||| (n >>> 6), 128 ||| (n &&& 63)]
  else if n < 65536 then [224 ||| (n >>> 12), 128 ||| ((n >>> 6) &&& 63), 128 ||| (n &&& 63)]
  else [240 ||| (n >>> 18), 128 ||| ((n >>> 12) &&& 63), 128 ||| ((n >>> 6) &&& 63), 128 ||| (n &&& 63)]

/-- UTF-8 bytes of a string (Node feeds strings to the HMAC as UTF-8). -/
def utf8Bytes (s : String) : List Nat := (s.data.map utf8EncodeChar).flatten

/-- Lower-case hex digit for a value below 16. -/
def hexDigit (n : Nat) : Char := if n < 10 then Char.ofNat (48 + n) else Char.ofNat (87 + n)

/-- Lower-case hex rendering of a byte list, as `digest("hex")` produces. -/
def bytesToHex (bytes : List Nat) : String :=
  ⟨(bytes.map (fun b => [hexDigit (b / 16), hexDigit (b % 16)])).flatten⟩

/-- HMAC-SHA256 with block size 64, per RFC 2104 / `node:crypto`. -/
def hmacSha256 (key msg : List Nat) : List Nat :=
  let k0 := if 64 < key.length then sha256 key else key
  let k := k0 ++ List.replicate (64 - k0.length) 0
  let ipad := k.map (fun b => b ^^^ 54)
  let opad := k.map (fun b => b ^^^ 92)
  sha256 (opad ++ sha256 (ipad ++ msg))

/-- Embedding of `computeHmac` (`app/security.ts`): hex HMAC-SHA256 of the body
keyed by the secret. -/
def computeHmac (secret body : String) : String :=
  bytesToHex (hmacSha256 (utf8Bytes secret) (utf8Bytes body))

/-- Javascript string truthiness on a nullable string: `null`/`undefined` and
`""` are falsy. -/
def jsTruthy : Option String → Bool
  | none => false
  | some s => !(s == "")

/-- Embedding of `timingSafeEqualHex` (`app/security.ts`): short-circuit on
unequal length, else accumulate char-code xor differences with bitwise or. -/
def timingSafeEqualHex (a b : String) : Bool :=
  if a.length ≠ b.length then false
  else ((List.zip a.data b.data).foldl (fun m p => m ||| (p.1.toNat ^^^ p.2.toNat)) 0) == 0

/-- Embedding of `isValidSignature` (`app/security.ts`). `provided` is the
`x-signature` header (`null` when missing), `secret` the configured secret. -/
def isValidSignature (provided : Option String) (secret : Option String) (rawBody : String) : Bool :=
  if !jsTruthy secret || !jsTruthy provided then false
  else timingSafeEqualHex (computeHmac (secret.getD ("")) rawBody) (provided.getD (""))

/-! ## Storage: `app/storage.ts` -/

/-- Webhook message payload (`WebhookMessage` in `app/models.ts`); `from` is a
reserved word in Lean, hence `from_`/`to_`. `text` is the optional field. -/
structure WebhookMessage where
  message_id : String
  from_ : String
  to_ : String
  ts : String
  text : Option String
deriving DecidableEq

/-- One row of the SQLite `messages` table. -/
structure Row where
  message_id : String
  from_msisdn : String
  to_msisdn : String
  ts : String
  text : Option String
  created_at : String
deriving DecidableEq

/-- Result record of `insertMessage`. -/
structure InsertResult where
  created : Bool
  dup : Bool
deriving DecidableEq

/-- Row written by `insertMessage` for message `m` at server time `now`
(`text ?? null` keeps the optional field as-is). -/
def rowOfMessage (m : WebhookMessage) (now : String) : Row :=
  { message_id := m.message_id, from_msisdn := m.from_, to_msisdn := m.to_,
    ts := m.ts, text := m.text, created_at := now }

/-- Whether some stored row already uses the given primary key. -/
def hasMessageId (rows : List Row) (id : String) : Bool :=
  rows.any (fun r => r.message_id == id)

/-- Embedding of `insertMessage` (`app/storage.ts`): an `INSERT` into a table
whose primary key is `message_id`. A key collision raises the UNIQUE
constraint error, which the function turns into `dup := true` leaving the
table untouched; otherwise one row is appended. -/
def insertMessage (m : WebhookMessage) (now : String) (rows : List Row) :
    InsertResult × List Row :=
  if hasMessageId rows m.message_id then ({ created := false, dup := true }, rows)
  else ({ created := true, dup := false }, rows ++ [rowOfMessage m now])

/-- Filter record passed to `listMessages` (`MessageFilters` in
`app/storage.ts`); `limit`/`offset` are the SQL page bounds. -/
structure MessageFilters where
  limit : Nat
  offset : Nat
  from_ : Option String
  since : Option String
  q : Option String

/-- SQLite `LOWER`: ASCII-only lower-casing. -/
def sqliteLowerChar (c : Char) : Char :=
  if 'A' ≤ c ∧ c ≤ 'Z' then Char.ofNat (c.toNat + 32) else c

/-- SQLite `LOWER` on a string. -/
def sqliteLower (s : String) : String := ⟨s.data.map sqliteLowerChar⟩

/-- SQLite `LIKE` pattern matching (no `ESCAPE` clause): `%` matches any run,
`_` matches one character. Fuel-driven so that it reduces in the kernel; the
fuel picked in `likeMatch` always suffices. -/
def likeMatchF : Nat → List Char → List Char → Bool
  | 0, _, _ => false
  | _ + 1, [], t => t.isEmpty
  | f + 1, '%' :: ps, [] => likeMatchF f ps []
  | f + 1, '%' :: ps, c :: ts => likeMatchF f ps (c :: ts) || likeMatchF f ('%' :: ps) ts
  | f + 1, '_' :: ps, _c :: ts => likeMatchF f ps ts
  | f + 1, p :: ps, c :: ts => (p == c) && likeMatchF f ps ts
  | _ + 1, _ :: _, [] => false

/-- SQLite `LIKE` with enough fuel for the pattern/text pair. -/
def likeMatch (p t : List Char) : Bool :=
  likeMatchF ((p.length + 1) * (t.length + 1) + 1) p t

/-- The `q` clause of `listMessages`:
`LOWER(text) LIKE '%' || LOWER(?) || '%'`. A `NULL` text makes the whole
predicate `NULL`, so such rows never match. -/
def qClauseMatches (q : String) : Option String → Bool
  | none => false
  | some t => likeMatch ('%' :: (sqliteLower q).data ++ ['%']) (sqliteLower t).data

/-- ASCII-case-insensitive substring containment — the semantics the
specification ascribes to the `q` filter, for comparison with the `LIKE`
clause the code actually issues. -/
def containsCI (t q : String) : Bool :=
  (List.range (t.length + 1)).any
    (fun i =>
      (((sqliteLower t).data.drop i).take (sqliteLower q).length) == (sqliteLower q).data)

/-- The `WHERE` clause built by `listMessages`: clauses are added only for
truthy filter values and compose with `AND`.  `since` is the inclusive
`ts >= ?` bound; TEXT comparison in SQLite is byte order, which on UTF-8
agrees with Lean's `String` order. -/
def rowMatches (f : MessageFilters) (r : Row) : Bool :=
  (if jsTruthy f.from_ then r.from_msisdn == f.from_.getD ("") else true) &&
  (if jsTruthy f.since then decide (f.since.getD ("") ≤ r.ts) else true) &&
  (if jsTruthy f.q then qClauseMatches (f.q.getD ("")) r.text else true)

/-- The `ORDER BY ts ASC, message_id ASC` total preorder on rows. -/
def keyLE (a b : Row) : Prop :=
  a.ts < b.ts ∨ (a.ts = b.ts ∧ a.message_id ≤ b.message_id)

instance : DecidableRel keyLE := fun a b =>
  inferInstanceAs (Decidable (_ ∨ _))

/-- The `ORDER BY ts DESC, message_id DESC` order used by `getStats` for the
last row: the converse of `keyLE`. -/
def keyGE (a b : Row) : Prop := keyLE b a

instance : DecidableRel keyGE := fun a b => inferInstanceAs (Decidable (keyLE b a))

instance : IsTotal Row keyLE :=
  ⟨fun a b => by
    unfold keyLE
    rcases lt_trichotomy a.ts b.ts with h | h | h
    · exact Or.inl (Or.inl h)
    · rcases le_total a.message_id b.message_id with h2 | h2
      · exact Or.inl (Or.inr ⟨h, h2⟩)
      · exact Or.inr (Or.inr ⟨h.symm, h2⟩)
    · exact Or.inr (Or.inl h)⟩

instance : IsTrans Row keyLE :=
  ⟨fun a b c hab hbc => by
    unfold keyLE at hab hbc ⊢
    rcases hab with h1 | ⟨h1, h1'⟩ <;> rcases hbc with h2 | ⟨h2, h2'⟩
    · exact Or.inl (lt_trans h1 h2)
    · exact Or.inl (h2 ▸ h1)
    · exact Or.inl (h1 ▸ h2)
    · exact Or.inr ⟨h1.trans h2, le_trans h1' h2'⟩⟩

instance : IsTotal Row keyGE :=
  ⟨fun a b => by unfold keyGE; exact total_of keyLE b a⟩

instance : IsTrans Row keyGE :=
  ⟨fun a b c hab hbc => by unfold keyGE at hab hbc ⊢; exact trans_of keyLE hbc hab⟩

/-- Row shape returned to clients (`StoredMessage` in `app/models.ts`). -/
structure StoredMessage where
  message_id : String
  from_ : String
  to_ : String
  ts : String
  text : Option String
  created_at : String
deriving DecidableEq

/-- The `(ts, message_id)` order on returned rows, as the claims state it. -/
def storedLE (a b : StoredMessage) : Prop :=
  a.ts < b.ts ∨ (a.ts = b.ts ∧ a.message_id ≤ b.message_id)

/-- Column renaming done by the `listMessages` row mapper. -/
def toStored (r : Row) : StoredMessage :=
  { message_id := r.message_id, from_ := r.from_msisdn, to_ := r.to_msisdn,
    ts := r.ts, text := r.text, created_at := r.created_at }

/-- Embedding of `listMessages` (`app/storage.ts`): filter, sort by
`(ts, message_id)`, page with `LIMIT ? OFFSET ?`, and map the column names;
`total` is the unpaginated count of matching rows. -/
def listMessages (f : MessageFilters) (rows : List Row) : List StoredMessage × Nat :=
  let matched := rows.filter (rowMatches f)
  let sorted := matched.insertionSort keyLE
  (((sorted.drop f.offset).take f.limit).map toStored, matched.length)

/-- Stats record returned by `getStats`. -/
structure Stats where
  total_messages : Nat
  senders_count : Nat
  messages_per_sender : List (String × Nat)
  first_message_ts : Option String
  last_message_ts : Option String
deriving DecidableEq

/-- Embedding of `getStats` (`app/storage.ts`). The first/last timestamps are
the `LIMIT 1` heads of the ascending resp. descending `(ts, message_id)`
orderings, `null` on an empty table. -/
def getStats (rows : List Row) : Stats :=
  let senders := (rows.map (fun r => r.from_msisdn)).dedup
  { total_messages := rows.length
    senders_count := senders.length
    messages_per_sender :=
      ((senders.map (fun s => (s, (rows.filter (fun r => r.from_msisdn == s)).length))).insertionSort
        (fun a b => b.2 ≤ a.2)).take 10
    first_message_ts := ((rows.insertionSort keyLE).head?).map (fun r => r.ts)
    last_message_ts := ((rows.insertionSort keyGE).head?).map (fun r => r.ts) }

/-! ## Metrics: `app/metrics.ts` -/

/-- Process-wide metrics state. Counters are association lists in insertion
order (the iteration order of a JS object with string keys); the latency
histogram is the fixed-key record `{100, 500, Infinity}` plus running count
and sum. -/
structure Metrics where
  httpRequests : List (String × Nat)
  webhookResults : List (String × Nat)
  b100 : Nat
  b500 : Nat
  bInf : Nat
  latencyCount : Nat
  latencyTotal : ℚ
deriving DecidableEq

/-- All-zero metrics state at process start. -/
def initMetrics : Metrics :=
  { httpRequests := [], webhookResults := [], b100 := 0, b500 := 0, bInf := 0,
    latencyCount := 0, latencyTotal := 0 }

/-- Increment of a JS object counter: `c[key] = (c[key] ?? 0) + 1` updates the
entry in place or appends a fresh key. -/
def bumpCounter (c : List (String × Nat)) (k : String) : List (String × Nat) :=
  if c.any (fun p => p.1 == k) then
    c.map (fun p => if p.1 == k then (p.1, p.2 + 1) else p)
  else c ++ [(k, 1)]

/-- Value stored under a key of a JS object counter (`0` when absent). -/
def counterValue (c : List (String × Nat)) (k : String) : Nat :=
  ((c.find? (fun p => p.1 == k)).map (fun p => p.2)).getD 0

/-- Embedding of `recordHttpRequest`. -/
def recordHttpRequest (m : Metrics) (path : String) (status : Nat) : Metrics :=
  { m with httpRequests := bumpCounter m.httpRequests (path ++ ("|") ++ toString status) }

/-- Embedding of `recordWebhookResult`. -/
def recordWebhookResult (m : Metrics) (result : String) : Metrics :=
  { m with webhookResults := bumpCounter m.webhookResults result }

/-- Embedding of `recordLatency`: bump count and sum, then exactly one of the
three buckets depending on the observed milliseconds. -/
def recordLatency (m : Metrics) (ms : ℚ) : Metrics :=
  if ms ≤ 100 then
    { m with latencyCount := m.latencyCount + 1, latencyTotal := m.latencyTotal + ms,
             b100 := m.b100 + 1 }
  else if ms ≤ 500 then
    { m with latencyCount := m.latencyCount + 1, latencyTotal := m.latencyTotal + ms,
             b500 := m.b500 + 1 }
  else
    { m with latencyCount := m.latencyCount + 1, latencyTotal := m.latencyTotal + ms,
             bInf := m.bInf + 1 }

/-- Bucket bound order used by `renderMetrics`' sort comparator
(`a === Infinity ? 1 : b === Infinity ? -1 : a - b`); `none` is `Infinity`. -/
def bucketLe (a b : Option Nat) : Bool :=
  match a, b with
  | none, _ => false
  | _, none => true
  | some x, some y => x ≤ y

/-- Bucket bounds in render order: the fixed keys of the histogram record,
sorted ascending with `Infinity` last. -/
def bucketBounds : List (Option Nat) :=
  List.insertionSort (fun a b => bucketLe a b = true) [some 100, some 500, none]

/-- Label printed for a bucket bound. -/
def bucketLabel : Option Nat → String
  | none => "+Inf"
  | some n => toString n

/-- Lookup of `latencyBuckets[le]`. -/
def bucketCount (m : Metrics) : Option Nat → Nat
  | some 100 => m.b100
  | some 500 => m.b500
  | _ => m.bInf

/-- The `(label, cumulative count)` pairs underlying the
`request_latency_ms_bucket` lines, accumulated in render order. -/
def latencyBucketLines (m : Metrics) : List (String × Nat) :=
  (bucketBounds.foldl
    (fun (acc : List (String × Nat) × Nat) le =>
      let c := acc.2 + bucketCount m le
      (acc.1 ++ [(bucketLabel le, c)], c))
    ([], 0)).1

/-- Embedding of `renderMetrics`, as the list of exposition lines the code
joins with newlines. The sum line prints the rational total where JS prints a
float; no claim concerns that formatting. Literal braces are written as their
escapes. -/
def renderMetrics (m : Metrics) : List String :=
  m.httpRequests.map (fun p =>
    let parts := p.1.splitOn ("|")
    "http_requests_total\x7bpath=\"" ++ parts.headD ("") ++ "\",status=\"" ++
      parts.getD 1 ("") ++ "\"\x7d " ++ toString p.2)
  ++ m.webhookResults.map (fun p =>
      "webhook_requests_total\x7bresult=\"" ++ p.1 ++ "\"\x7d " ++ toString p.2)
  ++ (latencyBucketLines m).map (fun p =>
      "request_latency_ms_bucket\x7ble=\"" ++ p.1 ++ "\"\x7d " ++ toString p.2)
  ++ ["request_latency_ms_count " ++ toString m.latencyCount,
      "request_latency_ms_sum " ++ toString m.latencyTotal]

/-! ## Query parsing: `parseMessagesQuery` in `app/main.ts` -/

/-- ASCII digit test. -/
def isDigitChar (c : Char) : Bool := ('0' ≤ c) && (c ≤ '9')

/-- Value of a digit string read in base 10. -/
def digitsToNat (ds : List Char) : Nat := ds.foldl (fun n c => 10 * n + (c.toNat - 48)) 0

/-- Decimal part of the JS `Number()` coercion: digits with an optional
fraction, at least one digit overall. -/
def parseDecimalBody (cs : List Char) : Option ℚ :=
  let intPart := cs.takeWhile isDigitChar
  let rest := cs.dropWhile isDigitChar
  match rest with
  | [] => if intPart.isEmpty then none else some (digitsToNat intPart)
  | '.' :: frac =>
    if frac.all isDigitChar && !(intPart.isEmpty && frac.isEmpty) then
      some ((digitsToNat intPart : ℚ) + (digitsToNat frac : ℚ) / ((10 : ℚ) ^ frac.length))
    else none
  | _ => none

/-- Model of the JS `Number()` string coercion on the inputs relevant here:
an optional sign followed by a decimal form; `none` models `NaN`; `""` maps
to `0` as in JS. Exponent, hex/octal/binary, `Infinity` and surrounding
whitespace forms are outside the modelled input domain. -/
def jsNumber (s : String) : Option ℚ :=
  match s.data with
  | [] => some 0
  | c :: rest =>
    if c = '-' then (parseDecimalBody rest).map (fun x => -x)
    else if c = '+' then parseDecimalBody rest
    else parseDecimalBody (c :: rest)

/-- Test of the strict ISO-8601 UTC shape `YYYY-MM-DDTHH:MM:SSZ` used for
`since` (the literal character-class pattern from the code). -/
def isoTsTest (s : String) : Bool :=
  match s.data with
  | [y1, y2, y3, y4, '-', o1, o2, '-', d1, d2, 'T',
     h1, h2, ':', i1, i2, ':', s1, s2, 'Z'] =>
    [y1, y2, y3, y4, o1, o2, d1, d2, h1, h2, i1, i2, s1, s2].all isDigitChar
  | _ => false

/-- Parsed query record (`MessagesQuery` in `app/main.ts`); `limit`/`offset`
are JS numbers. -/
structure MessagesQuery where
  limit : ℚ
  offset : ℚ
  from_ : Option String
  since : Option String
  q : Option String
deriving DecidableEq

/-- The two 422 failures `parseMessagesQuery` can produce. -/
inductive QueryError where
  | limitOffset
  | invalidSince
deriving DecidableEq

/-- Detail string carried by each 422 failure. -/
def queryErrorDetail : QueryError → String
  | .limitOffset => "limit must be 1-100 and offset must be >=0"
  | .invalidSince => "invalid since"

/-- Embedding of `parseMessagesQuery` (`app/main.ts`): falsy `limit`/`offset`
parameters default to 50 and 0, `NaN` or out-of-range numbers are the
limit/offset failure, then a truthy `since` must match the ISO shape;
`from`/`since`/`q` pass through unchanged. -/
def parseMessagesQuery (limit offset from_ since q : Option String) :
    Except QueryError MessagesQuery :=
  let limitNum := if jsTruthy limit then jsNumber (limit.getD ("")) else some 50
  let offsetNum := if jsTruthy offset then jsNumber (offset.getD ("")) else some 0
  match limitNum, offsetNum with
  | some l, some o =>
    if l < 1 ∨ 100 < l ∨ o < 0 then .error .limitOffset
    else if jsTruthy since && !isoTsTest (since.getD ("")) then .error .invalidSince
    else .ok { limit := l, offset := o, from_ := from_, since := since, q := q }
  | _, _ => .error .limitOffset

/-! ## Request handlers: `app/main.ts` -/

/-- A JS value thrown inside a handler: an `Error` carrying a message, or any
other value (whose message defaults to "unknown error" in the catch clauses). -/
inductive JsThrown where
  | errObj (msg : String)
  | nonError
deriving DecidableEq

/-- Message extracted by `err instanceof Error ? err.message : "unknown error"`. -/
def thrownMessage : JsThrown → String
  | .errObj m => m
  | .nonError => "unknown error"

/-- Response body of the webhook route. -/
inductive RespBody where
  | statusOk
  | detail (msg : String)
  | schemaIssues
deriving DecidableEq

/-- Outcome of parsing the raw webhook body: `JSON.parse` failure, Zod schema
failure, or a validated message. The parsing itself is third-party library
code; the handler only branches on this outcome. -/
inductive BodyParse where
  | invalidJson
  | schemaError
  | valid (m : WebhookMessage)

/-- What a completed webhook request reports: HTTP status, result tag, dup
flag and response body. -/
structure WebhookOutcome where
  status : Nat
  result : String
  dup : Bool
  body : RespBody
deriving DecidableEq

/-- Mutable state shared by requests: the messages table and the metrics. -/
structure ServerState where
  rows : List Row
  metrics : Metrics

/-- Embedding of the `POST /webhook` handler. `insertThrow` models an
unanticipated storage exception inside `insertMessage` (anything other than
the UNIQUE-constraint error, which `insertMessage` itself converts to
`dup`): the catch clause answers 500 with the thrown error's message.
`recordWebhookResult` runs only on the successful insert path; `finalize`
then always records the http counter and the latency. -/
def webhookTry (secret : Option String) (signature : Option String) (rawBody : String)
    (bp : BodyParse) (insertThrow : Option JsThrown) (now : String)
    (rows : List Row) : WebhookOutcome × List Row × Option String :=
  if !jsTruthy secret then
    ({ status := 503, result := "secret_missing", dup := false,
       body := .detail ("service not ready") }, rows, none)
  else if !isValidSignature signature secret rawBody then
    ({ status := 401, result := "invalid_signature", dup := false,
       body := .detail ("invalid signature") }, rows, none)
  else
    match bp with
    | .invalidJson =>
      ({ status := 422, result := "validation_error", dup := false,
         body := .detail ("invalid json") }, rows, none)
    | .schemaError =>
      ({ status := 422, result := "validation_error", dup := false,
         body := .schemaIssues }, rows, none)
    | .valid m =>
      match insertThrow with
      | some t =>
        ({ status := 500, result := "error", dup := false,
           body := .detail (thrownMessage t) }, rows, none)
      | none =>
        let ins := insertMessage m now rows
        let result := if ins.1.dup then "duplicate" else "created"
        ({ status := 200, result := result, dup := ins.1.dup, body := .statusOk },
         ins.2, some result)

/-- Completion of the webhook request: the third component of `webhookTry`
is the result tag handed to `recordWebhookResult` on line 95 of the handler
(`none` on every other path), after which `finalize` records the http
counter and the latency. -/
def webhookRequest (secret : Option String) (signature : Option String) (rawBody : String)
    (bp : BodyParse) (insertThrow : Option JsThrown) (now : String) (latency : ℚ)
    (st : ServerState) : WebhookOutcome × ServerState :=
  let tryOut := webhookTry secret signature rawBody bp insertThrow now st.rows
  let m1 := match tryOut.2.2 with
    | some r => recordWebhookResult st.metrics r
    | none => st.metrics
  (tryOut.1, { rows := tryOut.2.1,
               metrics := recordLatency (recordHttpRequest m1 ("/webhook") tryOut.1.status) latency })

/-- Response of the `GET /messages` route. -/
inductive MsgResp where
  | page (data : List StoredMessage) (total : Nat) (limit offset : ℚ)
  | failure (body : RespBody)
deriving DecidableEq

/-- Embedding of the `GET /messages` handler: parse the query, then list.
`listThrow` models a storage exception inside `listMessages`; the catch
clause logs the error (third component: the detail handed to
`console.error`, `none` when nothing is logged) and answers 500 with the
error's message. On success the SQL page bounds are the integer values of
the parsed numbers. -/
def messagesRequest (limit offset from_ since q : Option String)
    (listThrow : Option JsThrown) (rows : List Row) :
    Nat × MsgResp × Option String :=
  match parseMessagesQuery limit offset from_ since q with
  | .error e => (422, .failure (.detail (queryErrorDetail e)), none)
  | .ok mq =>
    match listThrow with
    | some t => (500, .failure (.detail (thrownMessage t)), some (thrownMessage t))
    | none =>
      let res := listMessages
        { limit := mq.limit.floor.toNat, offset := mq.offset.floor.toNat,
          from_ := mq.from_, since := mq.since, q := mq.q } rows
      (200, .page res.1 res.2 mq.limit mq.offset, none)

/-! ## Claim C1: idempotent insert -/

/-- Helper: a fresh-key table has no row surviving the key filter. -/
theorem filter_eq_nil_of_not_hasMessageId (rows : List Row) (id : String)
    (h : hasMessageId rows id = false) :
    rows.filter (fun r => r.message_id == id) = [] := by
  rw [List.filter_eq_nil_iff]
  intro r hr
  exact (List.any_eq_false.mp h) r hr

/-- C1: a first `insertMessage` on a fresh `message_id` reports
`created`/not-`dup` and appends exactly one row; a second insert with the
same `message_id` (any field values) reports `dup`, leaves the table
unchanged, and exactly one row with that key persists, carrying the
first-submitted field values. -/
theorem insertMessage_idempotent (m m' : WebhookMessage) (now now' : String) (rows : List Row)
    (hfresh : hasMessageId rows m.message_id = false)
    (hid : m'.message_id = m.message_id) :
    (insertMessage m now rows).1 = { created := true, dup := false } ∧
    (insertMessage m now rows).2 = rows ++ [rowOfMessage m now] ∧
    (insertMessage m' now' (insertMessage m now rows).2).1 = { created := false, dup := true } ∧
    (insertMessage m' now' (insertMessage m now rows).2).2 = (insertMessage m now rows).2 ∧
    ((insertMessage m' now' (insertMessage m now rows).2).2.filter
        (fun r => r.message_id == m.message_id)) = [rowOfMessage m now] := by
  have hins1 : insertMessage m now rows =
      ({ created := true, dup := false }, rows ++ [rowOfMessage m now]) := by
    simp [insertMessage, hfresh]
  have hhas : hasMessageId (rows ++ [rowOfMessage m now]) m'.message_id = true := by
    simp [hasMessageId, hid, rowOfMessage]
  have hins2 : insertMessage m' now' (rows ++ [rowOfMessage m now]) =
      ({ created := false, dup := true }, rows ++ [rowOfMessage m now]) := by
    unfold insertMessage
    rw [hhas]
    simp
  have hfil : (rows ++ [rowOfMessage m now]).filter (fun r => r.message_id == m.message_id) =
      [rowOfMessage m now] := by
    rw [List.filter_append, filter_eq_nil_of_not_hasMessageId rows m.message_id hfresh]
    simp [rowOfMessage]
  rw [hins1]
  exact ⟨rfl, rfl, by rw [hins2], by rw [hins2], by rw [hins2]; exact hfil⟩

/-- Witness for C1 at a concrete pair of messages sharing `message_id` "m1"
but differing in `text`: the duplicate insert reports `dup` and keeps the
first row only. -/
theorem insertMessage_idempotent_witness :
    hasMessageId [] ("m1") = false ∧
    (insertMessage ⟨"m1", "+100", "+200", "2025-01-15T10:00:00Z", some ("bye")⟩ ("T1")
        (insertMessage ⟨"m1", "+100", "+200", "2025-01-15T10:00:00Z", some ("hi")⟩ ("T0") []).2).2.filter
      (fun r => r.message_id == ("m1")) =
      [rowOfMessage ⟨"m1", "+100", "+200", "2025-01-15T10:00:00Z", some ("hi")⟩ ("T0")] :=
  ⟨by decide,
   (insertMessage_idempotent
      ⟨"m1", "+100", "+200", "2025-01-15T10:00:00Z", some ("hi")⟩
      ⟨"m1", "+100", "+200", "2025-01-15T10:00:00Z", some ("bye")⟩
      ("T0") ("T1") [] (by decide) rfl).2.2.2.2⟩

/-! ## Claim C9: insert/list round-trip -/

/-- Helper: with no `from`/`since`/`q` filters every row matches, so
`listMessages` is the sorted table, paged, with the full count. -/
theorem listMessages_noFilters (limit offset : Nat) (rows : List Row) :
    listMessages { limit := limit, offset := offset, from_ := none, since := none, q := none }
        rows =
      ((((rows.insertionSort keyLE).drop offset).take limit).map toStored, rows.length) := by
  have h : rows.filter
      (rowMatches { limit := limit, offset := offset, from_ := none, since := none, q := none }) =
      rows :=
    List.filter_eq_self.mpr (fun a _ => by simp [rowMatches, jsTruthy])
  simp only [listMessages, h]

/-- C9: after a successful `insertMessage` of `m`, an unfiltered
`listMessages` page covering the whole table contains a row whose
`message_id`, `from`, `to`, `ts` and `text` are exactly `m`'s submitted
values (`text` still `null` when omitted), with only `created_at` added. -/
theorem insert_then_list_roundtrip (m : WebhookMessage) (now : String) (rows : List Row)
    (hfresh : hasMessageId rows m.message_id = false) :
    (insertMessage m now rows).1.created = true ∧
    ({ message_id := m.message_id, from_ := m.from_, to_ := m.to_, ts := m.ts,
       text := m.text, created_at := now } : StoredMessage)
      ∈ (listMessages { limit := (insertMessage m now rows).2.length, offset := 0,
                        from_ := none, since := none, q := none }
          (insertMessage m now rows).2).1 := by
  have hins : insertMessage m now rows =
      ({ created := true, dup := false }, rows ++ [rowOfMessage m now]) := by
    simp [insertMessage, hfresh]
  rw [hins]
  refine ⟨rfl, ?_⟩
  rw [listMessages_noFilters]
  have hlen : ((rows ++ [rowOfMessage m now]).insertionSort keyLE).length =
      (rows ++ [rowOfMessage m now]).length :=
    (List.perm_insertionSort keyLE (rows ++ [rowOfMessage m now])).length_eq
  rw [List.drop_zero, ← hlen, List.take_length]
  have hmem : rowOfMessage m now ∈ (rows ++ [rowOfMessage m now]).insertionSort keyLE :=
    (List.perm_insertionSort keyLE (rows ++ [rowOfMessage m now])).mem_iff.mpr
      (List.mem_append_right rows (List.mem_singleton_self _))
  exact List.mem_map_of_mem toStored hmem

/-- Witness for C9: inserting a concrete message into the empty table and
listing it back yields exactly the submitted field values. -/
theorem insert_then_list_roundtrip_witness :
    hasMessageId [] ("m1") = false ∧
    ({ message_id := ("m1"), from_ := ("+100"), to_ := ("+200"),
       ts := ("2025-01-15T10:00:00Z"), text := some ("hi"), created_at := ("T0") } : StoredMessage)
      ∈ (listMessages { limit := (insertMessage ⟨"m1", "+100", "+200", "2025-01-15T10:00:00Z", some ("hi")⟩ ("T0") []).2.length,
                        offset := 0, from_ := none, since := none, q := none }
          (insertMessage ⟨"m1", "+100", "+200", "2025-01-15T10:00:00Z", some ("hi")⟩ ("T0") []).2).1 :=
  ⟨by decide,
   (insert_then_list_roundtrip ⟨"m1", "+100", "+200", "2025-01-15T10:00:00Z", some ("hi")⟩
      ("T0") [] (by decide)).2⟩

/-! ## Claim C10: empty-string query parameters act as absent -/

/-- C10: empty-string `limit`/`offset` take the defaults 50 and 0 exactly as
absent parameters do (first two conjuncts); an empty-string `since` skips
the ISO-shape check that rejects other malformed values (third and fourth
conjuncts); and empty-string `from`/`since`/`q` disable their filter
clauses, making `listMessages` agree with the unfiltered call (last
conjunct). -/
theorem empty_query_params_are_absent (from_ since q : Option String)
    (limit offset : Nat) (rows : List Row) :
    parseMessagesQuery (some ("")) (some ("")) from_ since q =
      parseMessagesQuery none none from_ since q ∧
    parseMessagesQuery (some ("")) (some ("")) none none none =
      Except.ok { limit := 50, offset := 0, from_ := none, since := none, q := none } ∧
    parseMessagesQuery none none none (some ("")) none =
      Except.ok { limit := 50, offset := 0, from_ := none, since := some (""), q := none } ∧
    parseMessagesQuery none none none (some ("x")) none =
      Except.error QueryError.invalidSince ∧
    listMessages { limit := limit, offset := offset,
                   from_ := some (""), since := some (""), q := some ("") } rows =
      listMessages { limit := limit, offset := offset,
                     from_ := none, since := none, q := none } rows := by
  refine ⟨rfl, rfl, rfl, rfl, ?_⟩
  have hmatch : ∀ r : Row,
      rowMatches { limit := limit, offset := offset,
                   from_ := some (""), since := some (""), q := some ("") } r =
      rowMatches { limit := limit, offset := offset,
                   from_ := none, since := none, q := none } r := by
    intro r
    simp [rowMatches, jsTruthy]
  simp only [listMessages]
  rw [List.filter_congr (fun r _ => hmatch r)]


/-! ## Claim C5: pagination bounds -/

/-- Helper: a non-empty all-digit character list parses to its base-10 value. -/
theorem parseDecimalBody_all_digits (ds : List Char) (hne : ds ≠ [])
    (hdig : ds.all isDigitChar = true) :
    parseDecimalBody ds = some ((digitsToNat ds : ℚ)) := by
  have htake : ds.takeWhile isDigitChar = ds :=
    List.takeWhile_eq_self_iff.mpr (List.all_eq_true.mp hdig)
  have hdrop : ds.dropWhile isDigitChar = [] :=
    List.dropWhile_eq_nil_iff.mpr (List.all_eq_true.mp hdig)
  unfold parseDecimalBody
  rw [htake, hdrop]
  simp [List.isEmpty_iff, hne]

/-- Helper: `Number()` on a non-empty all-digit string. -/
theorem jsNumber_all_digits (ds : List Char) (hne : ds ≠ [])
    (hdig : ds.all isDigitChar = true) :
    jsNumber ⟨ds⟩ = some ((digitsToNat ds : ℚ)) := by
  obtain ⟨c, cs, rfl⟩ : ∃ c cs, ds = c :: cs := by
    cases ds with
    | nil => exact absurd rfl hne
    | cons c cs => exact ⟨c, cs, rfl⟩
  have hc : isDigitChar c = true := List.all_eq_true.mp hdig c (List.mem_cons_self c cs)
  have hcm : c ≠ '-' := by intro h; rw [h] at hc; exact absurd hc (by decide)
  have hcp : c ≠ '+' := by intro h; rw [h] at hc; exact absurd hc (by decide)
  show jsNumber ⟨c :: cs⟩ = _
  unfold jsNumber
  simp only [if_neg hcm, if_neg hcp]
  exact parseDecimalBody_all_digits (c :: cs) hne hdig

/-- Helper: `Number()` on a minus sign followed by digits. -/
theorem jsNumber_neg_digits (ds : List Char) (hne : ds ≠ [])
    (hdig : ds.all isDigitChar = true) :
    jsNumber ⟨'-' :: ds⟩ = some (-((digitsToNat ds : ℚ))) := by
  have h : jsNumber ⟨'-' :: ds⟩ = (parseDecimalBody ds).map (fun x => -x) := rfl
  rw [h, parseDecimalBody_all_digits ds hne hdig]
  rfl

/-- Helper: a non-empty character list gives a truthy string. -/
theorem jsTruthy_mk (ds : List Char) (hne : ds ≠ []) :
    jsTruthy (some ⟨ds⟩) = true := by
  have h : jsTruthy (some ⟨ds⟩) = !((⟨ds⟩ : String) == ("")) := rfl
  rw [h, beq_eq_false_iff_ne.mpr (fun hEq => hne (congrArg String.data hEq))]
  rfl

/-- Helper: `parseMessagesQuery` once the two parsed numbers are known. -/
theorem parseMessagesQuery_eval (limit offset from_ since q : Option String) (l o : ℚ)
    (hl : (if jsTruthy limit then jsNumber (limit.getD ("")) else some 50) = some l)
    (ho : (if jsTruthy offset then jsNumber (offset.getD ("")) else some 0) = some o) :
    parseMessagesQuery limit offset from_ since q =
      (if l < 1 ∨ 100 < l ∨ o < 0 then Except.error QueryError.limitOffset
       else if jsTruthy since && !isoTsTest (since.getD ("")) then
         Except.error QueryError.invalidSince
       else Except.ok { limit := l, offset := o, from_ := from_, since := since, q := q }) := by
  unfold parseMessagesQuery
  rw [hl, ho]

/-- C5 (amended): `parseMessagesQuery` checks that `limit` is a number in
[1,100] and `offset` a number ≥ 0 — numeric, not integral, bounds. Omitted
parameters default to 50 and 0; an integer-valued `limit` string is accepted
exactly when its value lies in [1,100]; digit-string offsets are accepted,
negated ones with positive value are rejected; non-numeric strings are NaN
and rejected; and the concrete inputs `limit=0`, `limit=101`, `offset=-1`
named by the claim each produce the 422 response with the exact detail
string. -/
theorem parseMessagesQuery_bounds (ds : List Char) (hne : ds ≠ [])
    (hdig : ds.all isDigitChar = true) :
    parseMessagesQuery none none none none none =
      Except.ok { limit := 50, offset := 0, from_ := none, since := none, q := none } ∧
    parseMessagesQuery (some ⟨ds⟩) none none none none =
      (if 1 ≤ digitsToNat ds ∧ digitsToNat ds ≤ 100 then
        Except.ok { limit := ((digitsToNat ds : ℚ)), offset := 0,
                    from_ := none, since := none, q := none }
      else Except.error QueryError.limitOffset) ∧
    parseMessagesQuery none (some ⟨ds⟩) none none none =
      Except.ok { limit := 50, offset := ((digitsToNat ds : ℚ)),
                  from_ := none, since := none, q := none } ∧
    (0 < digitsToNat ds →
      parseMessagesQuery none (some ⟨'-' :: ds⟩) none none none =
        Except.error QueryError.limitOffset) ∧
    parseMessagesQuery (some ("abc")) none none none none =
      Except.error QueryError.limitOffset ∧
    messagesRequest (some ("0")) none none none none none [] =
      (422, MsgResp.failure (RespBody.detail ("limit must be 1-100 and offset must be >=0")),
        none) ∧
    messagesRequest (some ("101")) none none none none none [] =
      (422, MsgResp.failure (RespBody.detail ("limit must be 1-100 and offset must be >=0")),
        none) ∧
    messagesRequest none (some ("-1")) none none none none [] =
      (422, MsgResp.failure (RespBody.detail ("limit must be 1-100 and offset must be >=0")),
        none) := by
  have hjs : jsNumber ⟨ds⟩ = some ((digitsToNat ds : ℚ)) := jsNumber_all_digits ds hne hdig
  have ht : jsTruthy (some ⟨ds⟩) = true := jsTruthy_mk ds hne
  refine ⟨rfl, ?_, ?_, ?_, rfl, rfl, rfl, rfl⟩
  · rw [parseMessagesQuery_eval (some ⟨ds⟩) none none none none ((digitsToNat ds : ℚ)) 0
      (by simp [ht, hjs]) (by simp [jsTruthy])]
    by_cases hin : 1 ≤ digitsToNat ds ∧ digitsToNat ds ≤ 100
    · rw [if_pos hin, if_neg, if_neg (by simp [jsTruthy])]
      push_neg
      refine ⟨by exact_mod_cast hin.1, by exact_mod_cast hin.2, le_refl 0⟩
    · rw [if_neg hin, if_pos]
      rcases Nat.lt_or_ge (digitsToNat ds) 1 with h1 | h1
      · exact Or.inl (by exact_mod_cast h1)
      · have h2 : 100 < digitsToNat ds := by omega
        exact Or.inr (Or.inl (by exact_mod_cast h2))
  · rw [parseMessagesQuery_eval none (some ⟨ds⟩) none none none 50 ((digitsToNat ds : ℚ))
      (by simp [jsTruthy]) (by simp [ht, hjs])]
    rw [if_neg, if_neg (by simp [jsTruthy])]
    push_neg
    refine ⟨by norm_num, by norm_num, by positivity⟩
  · intro hpos
    have hne2 : ('-' :: ds) ≠ ([] : List Char) := by simp
    have ht2 : jsTruthy (some ⟨'-' :: ds⟩) = true := jsTruthy_mk _ hne2
    rw [parseMessagesQuery_eval none (some ⟨'-' :: ds⟩) none none none 50
      (-((digitsToNat ds : ℚ)))
      (by simp [jsTruthy]) (by simp [ht2, jsNumber_neg_digits ds hne hdig])]
    rw [if_pos]
    refine Or.inr (Or.inr ?_)
    simp only [neg_neg, Left.neg_neg_iff]
    exact_mod_cast hpos

/-- Witness for C5 at the digit string "50": accepted with value 50, while
the concrete out-of-range inputs named by the claim are rejected. -/
theorem parseMessagesQuery_bounds_witness :
    (('5' :: ['0']) ≠ ([] : List Char) ∧ ('5' :: ['0']).all isDigitChar = true) ∧
    parseMessagesQuery (some ⟨'5' :: ['0']⟩) none none none none =
      (if 1 ≤ digitsToNat ('5' :: ['0']) ∧ digitsToNat ('5' :: ['0']) ≤ 100 then
        Except.ok { limit := ((digitsToNat ('5' :: ['0']) : ℚ)), offset := 0,
                    from_ := none, since := none, q := none }
      else Except.error QueryError.limitOffset) :=
  ⟨⟨by decide, by decide⟩,
   (parseMessagesQuery_bounds ('5' :: ['0']) (by decide) (by decide)).2.1⟩

/-- Counterexample for C5 as stated: the non-integer limit string "2.5" is
accepted by `parseMessagesQuery` (value 5/2, denominator 2), although the
claim requires the limit parameter to be an integer in [1,100] and every
other value to be a 422 validation failure. -/
theorem parseMessagesQuery_accepts_non_integer_limit :
    parseMessagesQuery (some ("2.5")) none none none none =
      Except.ok { limit := (5 : ℚ)/2, offset := 0, from_ := none, since := none, q := none } ∧
    ((5 : ℚ)/2).den = 2 := by
  constructor
  · have hl : (if jsTruthy (some ("2.5")) then jsNumber ((some ("2.5")).getD ("")) else some 50) =
        some ((5 : ℚ)/2) := by
      have h1 : jsTruthy (some ("2.5")) = true := rfl
      have h2 : jsNumber ("2.5") =
          some ((digitsToNat ['2'] : ℚ) + (digitsToNat ['5'] : ℚ) / ((10 : ℚ) ^ (1 : Nat))) := rfl
      rw [h1]
      simp only [if_true, Option.getD, h2]
      have e2 : digitsToNat ['2'] = 2 := rfl
      have e5 : digitsToNat ['5'] = 5 := rfl
      rw [e2, e5]
      norm_num
    rw [parseMessagesQuery_eval (some ("2.5")) none none none none ((5 : ℚ)/2) 0 hl
      (by simp [jsTruthy])]
    rw [if_neg (by norm_num), if_neg (by simp [jsTruthy])]
  · norm_num

/-! ## Claim C4: signature verification -/

/-- Helper: a bitwise or of naturals is zero exactly when both are. -/
theorem nat_lor_eq_zero {a b : Nat} : a ||| b = 0 ↔ a = 0 ∧ b = 0 := by
  constructor
  · intro h
    constructor <;>
    · apply Nat.eq_of_testBit_eq
      intro i
      have hb := congrArg (fun n => Nat.testBit n i) h
      simp [Nat.testBit_lor] at hb
      simp [hb]
  · rintro ⟨rfl, rfl⟩
    rfl

/-- Helper: an or-accumulating fold is zero exactly when the seed and every
contribution are. -/
theorem foldl_lor_eq_zero {α : Type} (f : α → Nat) (l : List α) (init : Nat) :
    l.foldl (fun m p => m ||| f p) init = 0 ↔ init = 0 ∧ ∀ p ∈ l, f p = 0 := by
  induction l generalizing init with
  | nil => simp
  | cons x xs ih =>
    rw [List.foldl_cons, ih, nat_lor_eq_zero]
    constructor
    · rintro ⟨⟨h1, h2⟩, h3⟩
      exact ⟨h1, fun p hp => by rcases List.mem_cons.mp hp with rfl | hp2
                                exacts [h2, h3 p hp2]⟩
    · rintro ⟨h1, h2⟩
      exact ⟨⟨h1, h2 x (List.mem_cons_self x xs)⟩,
             fun p hp => h2 p (List.mem_cons_of_mem x hp)⟩

/-- Helper: equal-length character lists with vanishing pairwise xor are equal. -/
theorem eq_of_zip_xor_zero (as bs : List Char) (hlen : as.length = bs.length)
    (h : ∀ p ∈ List.zip as bs, p.1.toNat ^^^ p.2.toNat = 0) : as = bs := by
  induction as generalizing bs with
  | nil =>
    cases bs with
    | nil => rfl
    | cons b bs2 => simp at hlen
  | cons a as2 ih =>
    cases bs with
    | nil => simp at hlen
    | cons b bs2 =>
      have hhead : a.toNat ^^^ b.toNat = 0 :=
        h (a, b) (by simp [List.zip_cons_cons])
      have hab : a = b := Char.eq_of_val_eq (UInt32.ext (Nat.xor_eq_zero.mp hhead))
      have htail : as2 = bs2 := by
        apply ih bs2 (by simpa using hlen)
        intro p hp
        exact h p (by simp [List.zip_cons_cons, hp])
      rw [hab, htail]

/-- Helper: the diagonal of a self-zip. -/
theorem zip_self_eq (l : List Char) : ∀ p ∈ List.zip l l, p.1 = p.2 := by
  induction l with
  | nil => intro p hp; simp at hp
  | cons x xs ih =>
    intro p hp
    rcases List.mem_cons.mp (by simpa [List.zip_cons_cons] using hp) with rfl | hp2
    · rfl
    · exact ih p hp2

/-- Helper: the accumulating or-of-xors comparison decides string equality. -/
theorem timingSafeEqualHex_iff (a b : String) : timingSafeEqualHex a b = true ↔ a = b := by
  unfold timingSafeEqualHex
  by_cases hlen : a.length = b.length
  · rw [if_neg (fun hc => hc hlen), beq_iff_eq, foldl_lor_eq_zero]
    constructor
    · rintro ⟨-, hall⟩
      have hdata : a.data = b.data := eq_of_zip_xor_zero a.data b.data hlen hall
      calc a = ⟨a.data⟩ := rfl
        _ = ⟨b.data⟩ := by rw [hdata]
        _ = b := rfl
    · rintro rfl
      refine ⟨rfl, fun p hp => ?_⟩
      rw [zip_self_eq a.data p hp]
      exact Nat.xor_self p.2.toNat
  · rw [if_pos hlen]
    exact iff_of_false (by simp) (fun h => hlen (by rw [h]))

/-- C4 (amended): `isValidSignature` treats absent *or empty* secrets and
signatures alike (JS string falsiness): in all four such cases it returns
false (and, being a total function, never throws). For a non-empty secret
and non-empty provided signature it returns true exactly when the provided
string equals the hex HMAC-SHA256 of the raw body keyed by the secret; the
underlying length-guarded or-of-xors comparison decides exactly string
equality. -/
theorem isValidSignature_spec (p s body : String) (hp : p ≠ "") (hs : s ≠ "") :
    isValidSignature none (some s) body = false ∧
    isValidSignature (some p) none body = false ∧
    isValidSignature (some ("")) (some s) body = false ∧
    isValidSignature (some p) (some ("")) body = false ∧
    (isValidSignature (some p) (some s) body = true ↔ p = computeHmac s body) ∧
    (timingSafeEqualHex p s = true ↔ p = s) := by
  have hts : jsTruthy (some s) = true := by
    have h : jsTruthy (some s) = !(s == ("")) := rfl
    rw [h, beq_eq_false_iff_ne.mpr hs]
    rfl
  have htp : jsTruthy (some p) = true := by
    have h : jsTruthy (some p) = !(p == ("")) := rfl
    rw [h, beq_eq_false_iff_ne.mpr hp]
    rfl
  refine ⟨?_, ?_, ?_, ?_, ?_, timingSafeEqualHex_iff p s⟩
  · simp [isValidSignature, jsTruthy]
  · simp [isValidSignature, jsTruthy]
  · simp [isValidSignature, jsTruthy]
  · simp [isValidSignature, jsTruthy]
  · unfold isValidSignature
    rw [hts, htp]
    simp only [Bool.not_true, Bool.or_self, Bool.false_eq_true, if_false, Option.getD]
    rw [timingSafeEqualHex_iff]
    exact eq_comm

set_option maxRecDepth 40000 in
/-- Witness for C4: with secret "secret" and body "abc" the correct digest
(the value checked by the repository's own unit test) is accepted and the
unequal string "deadbeef" is rejected. -/
theorem isValidSignature_spec_witness :
    (("9946dad4e00e913fc8be8e5d3f7e110a4a9e832f83fb09c345285d78638d8a0e" : String) ≠ ("") ∧
     ("secret" : String) ≠ ("")) ∧
    isValidSignature (some ("9946dad4e00e913fc8be8e5d3f7e110a4a9e832f83fb09c345285d78638d8a0e"))
      (some ("secret")) ("abc") = true ∧
    isValidSignature (some ("deadbeef")) (some ("secret")) ("abc") = false :=
  ⟨⟨by decide, by decide⟩,
   (isValidSignature_spec ("9946dad4e00e913fc8be8e5d3f7e110a4a9e832f83fb09c345285d78638d8a0e")
      ("secret") ("abc") (by decide) (by decide)).2.2.2.2.1.mpr (by decide),
   by
    have h := (isValidSignature_spec ("deadbeef") ("secret") ("abc")
      (by decide) (by decide)).2.2.2.2.1
    have hnoteq : ("deadbeef" : String) ≠ computeHmac ("secret") ("abc") := by decide
    cases hval : isValidSignature (some ("deadbeef")) (some ("secret")) ("abc") with
    | false => rfl
    | true => exact absurd (h.mp hval) hnoteq⟩

set_option maxRecDepth 40000 in
/-- Counterexample for C4 as stated: with the present-but-empty secret `""`,
the provided string equal to the correct hex HMAC of the body is still
rejected, because JS falsiness short-circuits on the empty secret — so
"otherwise returns true iff the provided string equals the HMAC" fails for a
non-absent secret. -/
theorem isValidSignature_empty_secret_counterexample :
    computeHmac ("") ("x") =
      ("4cbc96099a6467ce002461f10549b4898265ebe6188b45efacc44293516e62c4") ∧
    isValidSignature
      (some ("4cbc96099a6467ce002461f10549b4898265ebe6188b45efacc44293516e62c4"))
      (some ("")) ("x") = false := by
  constructor
  · decide
  · rfl

/-! ## Claim C7: histogram cumulative property -/

/-- Helper: every `recordLatency` call raises the count by one and puts the
observation in exactly one bucket, so the bucket totals track the count. -/
theorem recordLatency_preserves_total (obs : List ℚ) (m : Metrics)
    (h : m.b100 + m.b500 + m.bInf = m.latencyCount) :
    (obs.foldl recordLatency m).b100 + (obs.foldl recordLatency m).b500 +
        (obs.foldl recordLatency m).bInf = (obs.foldl recordLatency m).latencyCount ∧
    (obs.foldl recordLatency m).latencyCount = m.latencyCount + obs.length := by
  induction obs generalizing m with
  | nil => exact ⟨h, rfl⟩
  | cons x xs ih =>
    have hstep : (recordLatency m x).b100 + (recordLatency m x).b500 +
        (recordLatency m x).bInf = (recordLatency m x).latencyCount ∧
        (recordLatency m x).latencyCount = m.latencyCount + 1 := by
      unfold recordLatency
      split_ifs <;> simp <;> omega
    rw [List.foldl_cons]
    obtain ⟨h1, h2⟩ := ih (recordLatency m x) hstep.1
    refine ⟨h1, ?_⟩
    rw [h2, hstep.2]
    simp [List.length_cons]
    omega

set_option maxRecDepth 40000 in
/-- C7: after any sequence of `recordLatency` observations, the rendered
bucket lines come in ascending bound order ending with +Inf (both as the
sorted bound list and as the emitted labels), the cumulative counts are
non-decreasing, and the +Inf cumulative count equals `latencyCount` — the
total number of observations — which `request_latency_ms_count` reports. -/
theorem latency_histogram_cumulative (obs : List ℚ) :
    bucketBounds = [some 100, some 500, none] ∧
    (latencyBucketLines (obs.foldl recordLatency initMetrics)).map Prod.fst =
      ["100", "500", "+Inf"] ∧
    List.Chain' (fun x y => x ≤ y)
      ((latencyBucketLines (obs.foldl recordLatency initMetrics)).map Prod.snd) ∧
    (latencyBucketLines (obs.foldl recordLatency initMetrics)).getLast?.map Prod.snd =
      some ((obs.foldl recordLatency initMetrics).latencyCount) ∧
    (obs.foldl recordLatency initMetrics).latencyCount = obs.length := by
  have hlines : ∀ mm : Metrics, latencyBucketLines mm =
      [(bucketLabel (some 100), mm.b100), (bucketLabel (some 500), mm.b100 + mm.b500),
       (bucketLabel none, mm.b100 + mm.b500 + mm.bInf)] := by
    intro mm
    have hb : bucketBounds = [some 100, some 500, none] := by decide
    rw [latencyBucketLines, hb]
    simp only [List.foldl_cons, List.foldl_nil]
    simp [bucketCount]
  obtain ⟨hinv, hcount⟩ := recordLatency_preserves_total obs initMetrics rfl
  refine ⟨by decide, ?_, ?_, ?_, ?_⟩
  · rw [hlines]
    simp only [List.map_cons, List.map_nil]
    decide
  · rw [hlines]
    simp [List.chain'_cons]
  · rw [hlines]
    simp [hinv]
  · rw [hcount]
    simp [initMetrics]

/-! ## Claim C2: webhook result counter -/

/-- Helper: bumping a key that a head entry does not carry commutes with the
head. -/
theorem bumpCounter_cons_ne (p : String × Nat) (c : List (String × Nat)) (k : String)
    (h : (p.1 == k) = false) :
    bumpCounter (p :: c) k = p :: bumpCounter c k := by
  have hne : p.1 ≠ k := beq_eq_false_iff_ne.mp h
  unfold bumpCounter
  cases hany : c.any (fun q => q.1 == k) with
  | true => simp [List.any_cons, h, hany, hne]
  | false => simp [List.any_cons, h, hany]

/-- Helper: a head entry with a different key does not affect a counter
lookup. -/
theorem counterValue_cons_ne (p : String × Nat) (c : List (String × Nat)) (k : String)
    (h : (p.1 == k) = false) :
    counterValue (p :: c) k = counterValue c k := by
  simp [counterValue, List.find?_cons, h]

/-- Helper: `bumpCounter` raises the bumped key's value by exactly one. -/
theorem counterValue_bumpCounter_self (c : List (String × Nat)) (k : String) :
    counterValue (bumpCounter c k) k = counterValue c k + 1 := by
  induction c with
  | nil => simp [bumpCounter, counterValue, List.find?_cons]
  | cons p c ih =>
    by_cases hp : p.1 = k
    · have hbeq : (p.1 == k) = true := beq_iff_eq.mpr hp
      have hbump : bumpCounter (p :: c) k =
          (p.1, p.2 + 1) :: c.map (fun q => if q.1 == k then (q.1, q.2 + 1) else q) := by
        simp [bumpCounter, List.any_cons, hbeq, hp]
      rw [hbump]
      simp [counterValue, List.find?_cons, hbeq]
    · have hbeq : (p.1 == k) = false := beq_eq_false_iff_ne.mpr hp
      rw [bumpCounter_cons_ne p c k hbeq, counterValue_cons_ne p _ k hbeq,
          counterValue_cons_ne p c k hbeq]
      exact ih

/-- Helper: `bumpCounter` leaves every other key's value unchanged. -/
theorem counterValue_bumpCounter_other (c : List (String × Nat)) (k k' : String)
    (h : k' ≠ k) :
    counterValue (bumpCounter c k) k' = counterValue c k' := by
  induction c with
  | nil =>
    have hkk : (k == k') = false := beq_eq_false_iff_ne.mpr (fun hk => h hk.symm)
    simp [bumpCounter, counterValue, List.find?_cons, hkk]
  | cons p c ih =>
    by_cases hp : p.1 = k
    · have hbeq : (p.1 == k) = true := beq_iff_eq.mpr hp
      have hbeq' : (p.1 == k') = false :=
        beq_eq_false_iff_ne.mpr (by rw [hp]; exact fun hk => h hk.symm)
      have hbump : bumpCounter (p :: c) k =
          (p.1, p.2 + 1) :: c.map (fun q => if q.1 == k then (q.1, q.2 + 1) else q) := by
        simp [bumpCounter, List.any_cons, hbeq, hp]
      rw [hbump]
      rw [counterValue_cons_ne (p.1, p.2 + 1) _ k' (by simpa using hbeq')]
      rw [counterValue_cons_ne p c k' hbeq']
      have hmap : ∀ (d : List (String × Nat)),
          counterValue (d.map (fun q => if q.1 == k then (q.1, q.2 + 1) else q)) k' =
            counterValue d k' := by
        intro d
        induction d with
        | nil => rfl
        | cons q d ihd =>
          by_cases hq : q.1 = k
          · have hqb : (q.1 == k) = true := beq_iff_eq.mpr hq
            have hqb' : (q.1 == k') = false :=
              beq_eq_false_iff_ne.mpr (by rw [hq]; exact fun hk => h hk.symm)
            simp only [List.map_cons, hqb, if_true]
            rw [counterValue_cons_ne _ _ k' (by simpa using hqb'),
                counterValue_cons_ne q d k' hqb']
            exact ihd
          · have hqb : (q.1 == k) = false := beq_eq_false_iff_ne.mpr hq
            simp only [List.map_cons, hqb]
            by_cases hq' : q.1 = k'
            · have hqb' : (q.1 == k') = true := beq_iff_eq.mpr hq'
              simp [counterValue, List.find?_cons, hqb', Bool.false_eq_true, if_false]
            · have hqb' : (q.1 == k') = false := beq_eq_false_iff_ne.mpr hq'
              simp only [Bool.false_eq_true, if_false]
              rw [counterValue_cons_ne q _ k' hqb', counterValue_cons_ne q d k' hqb']
              exact ihd
      exact hmap c
    · have hbeq : (p.1 == k) = false := beq_eq_false_iff_ne.mpr hp
      by_cases hp' : p.1 = k'
      · have hbeq' : (p.1 == k') = true := beq_iff_eq.mpr hp'
        rw [bumpCounter_cons_ne p c k hbeq]
        simp [counterValue, List.find?_cons, hbeq']
      · have hbeq' : (p.1 == k') = false := beq_eq_false_iff_ne.mpr hp'
        rw [bumpCounter_cons_ne p c k hbeq, counterValue_cons_ne p _ k' hbeq',
            counterValue_cons_ne p c k' hbeq']
        exact ih

/-- Helper: every `webhookTry` run either ends on the successful insert path
— result tag `created` or `duplicate`, which is exactly the tag handed to
`recordWebhookResult` — or on one of the four other terminal paths, where no
tag is recorded at all. -/
theorem webhookTry_cases (secret signature : Option String) (rawBody : String)
    (bp : BodyParse) (insertThrow : Option JsThrown) (now : String) (rows : List Row) :
    (((webhookTry secret signature rawBody bp insertThrow now rows).1.result = "created" ∨
      (webhookTry secret signature rawBody bp insertThrow now rows).1.result = "duplicate") ∧
      (webhookTry secret signature rawBody bp insertThrow now rows).2.2 =
        some ((webhookTry secret signature rawBody bp insertThrow now rows).1.result)) ∨
    (((webhookTry secret signature rawBody bp insertThrow now rows).1.result = "secret_missing" ∨
      (webhookTry secret signature rawBody bp insertThrow now rows).1.result = "invalid_signature" ∨
      (webhookTry secret signature rawBody bp insertThrow now rows).1.result = "validation_error" ∨
      (webhookTry secret signature rawBody bp insertThrow now rows).1.result = "error") ∧
      (webhookTry secret signature rawBody bp insertThrow now rows).2.2 = none) := by
  unfold webhookTry
  split_ifs with h1 h2
  · exact Or.inr ⟨Or.inl rfl, rfl⟩
  · exact Or.inr ⟨Or.inr (Or.inl rfl), rfl⟩
  · cases bp with
    | invalidJson => exact Or.inr ⟨Or.inr (Or.inr (Or.inl rfl)), rfl⟩
    | schemaError => exact Or.inr ⟨Or.inr (Or.inr (Or.inl rfl)), rfl⟩
    | valid m =>
      cases insertThrow with
      | some t => exact Or.inr ⟨Or.inr (Or.inr (Or.inr rfl)), rfl⟩
      | none =>
        cases hdup : (insertMessage m now rows).1.dup with
        | false => exact Or.inl ⟨Or.inl (by simp [hdup]), by simp [hdup]⟩
        | true => exact Or.inl ⟨Or.inr (by simp [hdup]), by simp [hdup]⟩

/-- C2 (amended): `webhook_requests_total` is touched only on the successful
insert path. When a request completes with result `created` or `duplicate`,
the counter keyed by exactly that tag rises by one and no other key moves;
when it completes with `secret_missing`, `invalid_signature`,
`validation_error` or `error`, the counter map is left entirely unchanged —
those four outcomes are never recorded. -/
theorem webhook_results_counter (secret signature : Option String) (rawBody : String)
    (bp : BodyParse) (insertThrow : Option JsThrown) (now : String) (latency : ℚ)
    (st : ServerState) :
    (((webhookRequest secret signature rawBody bp insertThrow now latency st).1.result =
        "created" ∨
      (webhookRequest secret signature rawBody bp insertThrow now latency st).1.result =
        "duplicate") →
      (webhookRequest secret signature rawBody bp insertThrow now latency st).2.metrics.webhookResults =
        bumpCounter st.metrics.webhookResults
          ((webhookRequest secret signature rawBody bp insertThrow now latency st).1.result) ∧
      counterValue
          ((webhookRequest secret signature rawBody bp insertThrow now latency st).2.metrics.webhookResults)
          ((webhookRequest secret signature rawBody bp insertThrow now latency st).1.result) =
        counterValue st.metrics.webhookResults
          ((webhookRequest secret signature rawBody bp insertThrow now latency st).1.result) + 1 ∧
      (∀ tag, tag ≠ (webhookRequest secret signature rawBody bp insertThrow now latency st).1.result →
        counterValue
            ((webhookRequest secret signature rawBody bp insertThrow now latency st).2.metrics.webhookResults)
            tag =
          counterValue st.metrics.webhookResults tag)) ∧
    (((webhookRequest secret signature rawBody bp insertThrow now latency st).1.result =
        "secret_missing" ∨
      (webhookRequest secret signature rawBody bp insertThrow now latency st).1.result =
        "invalid_signature" ∨
      (webhookRequest secret signature rawBody bp insertThrow now latency st).1.result =
        "validation_error" ∨
      (webhookRequest secret signature rawBody bp insertThrow now latency st).1.result =
        "error") →
      (webhookRequest secret signature rawBody bp insertThrow now latency st).2.metrics.webhookResults =
        st.metrics.webhookResults) := by
  have hpres : ∀ (mm : Metrics) (code : Nat),
      (recordLatency (recordHttpRequest mm ("/webhook") code) latency).webhookResults =
        mm.webhookResults := by
    intro mm code
    unfold recordLatency recordHttpRequest
    split_ifs <;> rfl
  have hfst : (webhookRequest secret signature rawBody bp insertThrow now latency st).1 =
      (webhookTry secret signature rawBody bp insertThrow now st.rows).1 := rfl
  rcases webhookTry_cases secret signature rawBody bp insertThrow now st.rows with
    ⟨hres, hrec⟩ | ⟨hres, hrec⟩
  · have hmet : (webhookRequest secret signature rawBody bp insertThrow now latency st).2.metrics.webhookResults =
        bumpCounter st.metrics.webhookResults
          ((webhookTry secret signature rawBody bp insertThrow now st.rows).1.result) := by
      show (recordLatency (recordHttpRequest
          (match (webhookTry secret signature rawBody bp insertThrow now st.rows).2.2 with
           | some r => recordWebhookResult st.metrics r
           | none => st.metrics) ("/webhook")
          (webhookTry secret signature rawBody bp insertThrow now st.rows).1.status)
          latency).webhookResults = _
      rw [hrec]
      rw [hpres]
      rfl
    constructor
    · intro _
      rw [hfst, hmet]
      refine ⟨rfl, counterValue_bumpCounter_self _ _, fun tag htag => ?_⟩
      exact counterValue_bumpCounter_other _ _ tag htag
    · intro hother
      rw [hfst] at hother
      rcases hres with hr | hr <;> rcases hother with ho | ho | ho | ho <;>
        (rw [hr] at ho; exact absurd ho (by decide))
  · have hmet : (webhookRequest secret signature rawBody bp insertThrow now latency st).2.metrics.webhookResults =
        st.metrics.webhookResults := by
      show (recordLatency (recordHttpRequest
          (match (webhookTry secret signature rawBody bp insertThrow now st.rows).2.2 with
           | some r => recordWebhookResult st.metrics r
           | none => st.metrics) ("/webhook")
          (webhookTry secret signature rawBody bp insertThrow now st.rows).1.status)
          latency).webhookResults = _
      rw [hrec]
      rw [hpres]
    constructor
    · intro hsucc
      rw [hfst] at hsucc
      rcases hsucc with hsc | hsc <;> rcases hres with hr | hr | hr | hr <;>
        (rw [hsc] at hr; exact absurd hr (by decide))
    · intro _
      exact hmet

/-- Counterexample for C2 as stated: a completed `POST /webhook` request with
no secret configured terminates with result tag `secret_missing`, yet
`webhook_requests_total` is not incremented for it — starting from fresh
metrics, the counter map stays empty and the `secret_missing` key still reads
zero, where the claim demands exactly one. The same handler run does record
`http_requests_total` and a latency observation. -/
theorem webhook_counter_missing_counterexample :
    (webhookRequest none none ("") BodyParse.invalidJson none ("") 0
        { rows := [], metrics := initMetrics }).1.result = "secret_missing" ∧
    (webhookRequest none none ("") BodyParse.invalidJson none ("") 0
        { rows := [], metrics := initMetrics }).2.metrics.webhookResults = [] ∧
    counterValue
        ((webhookRequest none none ("") BodyParse.invalidJson none ("") 0
          { rows := [], metrics := initMetrics }).2.metrics.webhookResults)
        ("secret_missing") = 0 ∧
    (webhookRequest none none ("") BodyParse.invalidJson none ("") 0
        { rows := [], metrics := initMetrics }).2.metrics.httpRequests =
      [("/webhook|503", 1)] ∧
    (webhookRequest none none ("") BodyParse.invalidJson none ("") 0
        { rows := [], metrics := initMetrics }).2.metrics.latencyCount = 1 :=
  ⟨rfl, rfl, rfl, rfl, rfl⟩

set_option maxRecDepth 80000 in
/-- Witness for C2 at a concrete created-path request: with a configured
secret and matching signature, insertion of a fresh message bumps the
`created` counter from zero to one. -/
theorem webhook_results_counter_witness :
    ((webhookRequest (some ("s")) (some (computeHmac ("s") ("{}"))) ("{}")
        (BodyParse.valid ⟨"m1", "+1", "+2", "2025-01-15T10:00:00Z", none⟩) none ("T0") 0
        { rows := [], metrics := initMetrics }).1.result = "created" ∨
     (webhookRequest (some ("s")) (some (computeHmac ("s") ("{}"))) ("{}")
        (BodyParse.valid ⟨"m1", "+1", "+2", "2025-01-15T10:00:00Z", none⟩) none ("T0") 0
        { rows := [], metrics := initMetrics }).1.result = "duplicate") ∧
    counterValue
        ((webhookRequest (some ("s")) (some (computeHmac ("s") ("{}"))) ("{}")
          (BodyParse.valid ⟨"m1", "+1", "+2", "2025-01-15T10:00:00Z", none⟩) none ("T0") 0
          { rows := [], metrics := initMetrics }).2.metrics.webhookResults)
        ((webhookRequest (some ("s")) (some (computeHmac ("s") ("{}"))) ("{}")
          (BodyParse.valid ⟨"m1", "+1", "+2", "2025-01-15T10:00:00Z", none⟩) none ("T0") 0
          { rows := [], metrics := initMetrics }).1.result) =
      counterValue initMetrics.webhookResults
        ((webhookRequest (some ("s")) (some (computeHmac ("s") ("{}"))) ("{}")
          (BodyParse.valid ⟨"m1", "+1", "+2", "2025-01-15T10:00:00Z", none⟩) none ("T0") 0
          { rows := [], metrics := initMetrics }).1.result) + 1 :=
  ⟨Or.inl (by decide),
   ((webhook_results_counter (some ("s")) (some (computeHmac ("s") ("{}"))) ("{}")
      (BodyParse.valid ⟨"m1", "+1", "+2", "2025-01-15T10:00:00Z", none⟩) none ("T0") 0
      { rows := [], metrics := initMetrics }).1 (Or.inl (by decide))).2.1⟩

/-! ## Claim C8: internal error responses -/

/-- C8 (amended): when a storage exception escapes, both the webhook and the
messages handlers respond 500, and the body's `detail` is the thrown error's
own message (or "unknown error" for a non-`Error` throw) — the full detail
is returned to the caller, not replaced by a generic message. The `/messages`
catch additionally logs the error (third component), the webhook catch does
not log the thrown error. -/
theorem internal_error_detail_returned
    (secret signature : Option String) (rawBody : String) (m : WebhookMessage)
    (t : JsThrown) (now : String) (latency : ℚ) (st : ServerState)
    (hsec : jsTruthy secret = true)
    (hsig : isValidSignature signature secret rawBody = true)
    (limit offset from_ since q : Option String) (rows : List Row) (mq : MessagesQuery)
    (hparse : parseMessagesQuery limit offset from_ since q = Except.ok mq) :
    (webhookRequest secret signature rawBody (BodyParse.valid m) (some t) now latency st).1 =
      { status := 500, result := "error", dup := false,
        body := RespBody.detail (thrownMessage t) } ∧
    messagesRequest limit offset from_ since q (some t) rows =
      (500, MsgResp.failure (RespBody.detail (thrownMessage t)), some (thrownMessage t)) := by
  constructor
  · show (webhookTry secret signature rawBody (BodyParse.valid m) (some t) now st.rows).1 = _
    unfold webhookTry
    rw [hsec, hsig]
    simp
  · unfold messagesRequest
    rw [hparse]

set_option maxRecDepth 80000 in
/-- Witness for C8 with a concrete valid signature and a thrown
`Error("boom")`: both handlers answer 500 carrying "boom" verbatim. -/
theorem internal_error_detail_returned_witness :
    (jsTruthy (some ("s")) = true ∧
     isValidSignature (some (computeHmac ("s") ("{}"))) (some ("s")) ("{}") = true ∧
     parseMessagesQuery none none none none none =
       Except.ok { limit := 50, offset := 0, from_ := none, since := none, q := none }) ∧
    (webhookRequest (some ("s")) (some (computeHmac ("s") ("{}"))) ("{}")
        (BodyParse.valid ⟨"m1", "+1", "+2", "2025-01-15T10:00:00Z", none⟩)
        (some (JsThrown.errObj ("boom"))) ("T0") 0
        { rows := [], metrics := initMetrics }).1 =
      { status := 500, result := "error", dup := false,
        body := RespBody.detail (thrownMessage (JsThrown.errObj ("boom"))) } ∧
    messagesRequest none none none none none (some (JsThrown.errObj ("boom"))) [] =
      (500, MsgResp.failure (RespBody.detail (thrownMessage (JsThrown.errObj ("boom")))),
        some (thrownMessage (JsThrown.errObj ("boom")))) :=
  ⟨⟨rfl, by decide, rfl⟩,
   (internal_error_detail_returned (some ("s")) (some (computeHmac ("s") ("{}"))) ("{}")
      ⟨"m1", "+1", "+2", "2025-01-15T10:00:00Z", none⟩ (JsThrown.errObj ("boom")) ("T0") 0
      { rows := [], metrics := initMetrics } rfl (by decide)
      none none none none none []
      { limit := 50, offset := 0, from_ := none, since := none, q := none } rfl).1,
   (internal_error_detail_returned (some ("s")) (some (computeHmac ("s") ("{}"))) ("{}")
      ⟨"m1", "+1", "+2", "2025-01-15T10:00:00Z", none⟩ (JsThrown.errObj ("boom")) ("T0") 0
      { rows := [], metrics := initMetrics } rfl (by decide)
      none none none none none []
      { limit := 50, offset := 0, from_ := none, since := none, q := none } rfl).2⟩

/-- Counterexample for C8 as stated: a raw SQLite error message thrown inside
`listMessages` is echoed verbatim as the client-facing `detail` of the 500
response — storage internals do appear in the body, so the detail is not a
generic message withheld from the caller. -/
theorem internal_error_detail_counterexample :
    messagesRequest none none none none none
        (some (JsThrown.errObj ("SQLITE_ERROR: no such table: messages"))) [] =
      (500,
       MsgResp.failure (RespBody.detail ("SQLITE_ERROR: no such table: messages")),
       some ("SQLITE_ERROR: no such table: messages")) := rfl

/-! ## Claim C3: retrieval ordering and stats endpoints -/

/-- Helper: `keyLE` is reflexive. -/
theorem keyLE_refl (a : Row) : keyLE a a := Or.inr ⟨rfl, le_refl _⟩

/-- Helper: two rows below each other in the ordering share their `ts`. -/
theorem keyLE_antisymm_ts {a b : Row} (h1 : keyLE a b) (h2 : keyLE b a) :
    a.ts = b.ts := by
  rcases h1 with h1 | ⟨h1, -⟩
  · rcases h2 with h2 | ⟨h2, -⟩
    · exact absurd h2 (lt_asymm h1)
    · exact absurd (h2 ▸ h1) (lt_irrefl _)
  · exact h1

/-- Helper: the head of a descending-sorted list dominates every element. -/
theorem head_max_of_pairwise_keyGE {d : Row} {l : List Row}
    (h : List.Pairwise keyGE (d :: l)) : ∀ x ∈ d :: l, keyLE x d := by
  intro x hx
  rcases List.mem_cons.mp hx with rfl | hx2
  · exact keyLE_refl x
  · exact (List.pairwise_cons.mp h).1 x hx2

/-- Helper: the last element of an ascending-sorted list dominates every
element. -/
theorem getLast_max_of_pairwise_keyLE {l : List Row} (h : List.Pairwise keyLE l)
    {y : Row} (hy : l.getLast? = some y) : ∀ x ∈ l, keyLE x y := by
  have hrev : List.Pairwise keyGE l.reverse := by
    rw [List.pairwise_reverse]
    exact h
  have hhead : l.reverse.head? = some y := by rw [List.head?_reverse]; exact hy
  intro x hx
  have hx2 : x ∈ l.reverse := List.mem_reverse.mpr hx
  cases hrv : l.reverse with
  | nil => rw [hrv] at hhead; cases hhead
  | cons d t =>
    rw [hrv] at hhead hx2 hrev
    have hdy : d = y := by injection hhead
    exact hdy ▸ head_max_of_pairwise_keyGE hrev x hx2

/-- Helper: a list whose optional head is known is a cons. -/
theorem eq_cons_of_head?_eq_some {α : Type} {l : List α} {a : α} (h : l.head? = some a) :
    ∃ t, l = a :: t := by
  cases l with
  | nil => cases h
  | cons x t =>
    refine ⟨t, ?_⟩
    injection h with h1
    rw [h1]

/-- Helper: the head of the descending sort and the last element of the
ascending sort carry the same `ts` — they are both maxima of the same
multiset under the `(ts, message_id)` order. -/
theorem stats_last_ts_agrees (rows : List Row) :
    ((rows.insertionSort keyGE).head?).map (fun r => r.ts) =
      ((rows.insertionSort keyLE).getLast?).map (fun r => r.ts) := by
  cases hrows : rows with
  | nil => rfl
  | cons a l =>
    rw [← hrows]
    have hrne : rows ≠ [] := by rw [hrows]; exact List.cons_ne_nil a l
    have hPA := List.perm_insertionSort keyLE rows
    have hPD := List.perm_insertionSort keyGE rows
    have hAne : rows.insertionSort keyLE ≠ [] := by
      intro hnil
      have hlen := hPA.length_eq
      rw [hnil] at hlen
      exact hrne (List.eq_nil_of_length_eq_zero hlen.symm)
    have hDne : rows.insertionSort keyGE ≠ [] := by
      intro hnil
      have hlen := hPD.length_eq
      rw [hnil] at hlen
      exact hrne (List.eq_nil_of_length_eq_zero hlen.symm)
    obtain ⟨y, hy⟩ : ∃ y, (rows.insertionSort keyLE).getLast? = some y := by
      cases hg : (rows.insertionSort keyLE).getLast? with
      | none => exact absurd (List.getLast?_eq_none_iff.mp hg) hAne
      | some y => exact ⟨y, rfl⟩
    obtain ⟨d, hd⟩ : ∃ d, (rows.insertionSort keyGE).head? = some d := by
      cases hg : (rows.insertionSort keyGE).head? with
      | none => exact absurd (List.head?_eq_none_iff.mp hg) hDne
      | some d => exact ⟨d, rfl⟩
    obtain ⟨tD, hD⟩ := eq_cons_of_head?_eq_some hd
    have hsorted := List.sorted_insertionSort keyGE rows
    rw [hD] at hsorted
    have hAmax : ∀ x ∈ rows.insertionSort keyLE, keyLE x y :=
      getLast_max_of_pairwise_keyLE (List.sorted_insertionSort keyLE rows) hy
    have hDmax : ∀ x ∈ rows.insertionSort keyGE, keyLE x d := by
      rw [hD]
      exact head_max_of_pairwise_keyGE hsorted
    have hymem : y ∈ rows.insertionSort keyGE :=
      hPD.mem_iff.mpr (hPA.mem_iff.mp (List.mem_of_getLast?_eq_some hy))
    have hdmem : d ∈ rows.insertionSort keyLE := by
      apply hPA.mem_iff.mpr
      apply hPD.mem_iff.mp
      rw [hD]
      exact List.mem_cons_self d tD
    have hts : d.ts = y.ts :=
      keyLE_antisymm_ts (hAmax d hdmem) (hDmax y hymem)
    rw [hy, hd]
    simp [hts]

/-- C3: an unfiltered `listMessages` page is sorted by `(ts, message_id)`
ascending with ties on `ts` broken by `message_id` (every page, any
limit/offset), the full listing is exactly the sorted table, and
`getStats`'s `first_message_ts`/`last_message_ts` are the `ts` of the first
and last rows of that same ordering — both `null` on the empty store. -/
theorem listMessages_sorted_and_stats (rows : List Row) (limit offset : Nat) :
    (listMessages { limit := rows.length, offset := 0, from_ := none, since := none, q := none }
        rows).1 = (rows.insertionSort keyLE).map toStored ∧
    List.Pairwise storedLE
      (listMessages { limit := limit, offset := offset, from_ := none, since := none, q := none }
        rows).1 ∧
    (getStats rows).first_message_ts =
      ((listMessages { limit := rows.length, offset := 0, from_ := none, since := none, q := none } rows).1.head?).map (fun r => r.ts) ∧
    (getStats rows).last_message_ts =
      ((listMessages { limit := rows.length, offset := 0, from_ := none, since := none, q := none } rows).1.getLast?).map (fun r => r.ts) ∧
    (getStats ([] : List Row)).first_message_ts = none ∧
    (getStats ([] : List Row)).last_message_ts = none := by
  have hall : (listMessages { limit := rows.length, offset := 0, from_ := none, since := none, q := none } rows).1 = (rows.insertionSort keyLE).map toStored := by
    rw [listMessages_noFilters]
    rw [List.drop_zero, ← (List.perm_insertionSort keyLE rows).length_eq, List.take_length]
  refine ⟨hall, ?_, ?_, ?_, rfl, rfl⟩
  · rw [listMessages_noFilters]
    rw [List.pairwise_map]
    have hsorted : List.Pairwise keyLE (rows.insertionSort keyLE) :=
      List.sorted_insertionSort keyLE rows
    have hsub : (((rows.insertionSort keyLE).drop offset).take limit).Sublist
        (rows.insertionSort keyLE) :=
      (List.take_sublist _ _).trans (List.drop_sublist _ _)
    exact List.Pairwise.sublist hsub hsorted
  · rw [hall, List.head?_map, Option.map_map]
    rfl
  · rw [hall, List.getLast?_map, Option.map_map]
    have hlast := stats_last_ts_agrees rows
    show (getStats rows).last_message_ts = _
    unfold getStats
    rw [hlast]
    rfl

/-! ## Claim C6: the `q` text filter -/

set_option maxRecDepth 40000 in
/-- C6, evaluated at the failing input: the stored text "axb" does not
case-insensitively contain the query "a_b" as a substring, yet `listMessages`
returns the row, because the unescaped SQL `LIKE` treats `_` as a one-
character wildcard. The remaining conjuncts evaluate the parts of the claim
the code does honor: matching is ASCII-case-insensitive ("HELLO" finds
"say hello") and a `NULL` text never matches a non-empty query. -/
theorem like_filter_wildcard_divergence :
    (listMessages { limit := 10, offset := 0, from_ := none, since := none, q := some ("a_b") }
        [{ message_id := "m1", from_msisdn := "+1", to_msisdn := "+2", ts := "T1", text := some ("axb"), created_at := "C1" }]).1 =
      [{ message_id := "m1", from_ := "+1", to_ := "+2", ts := "T1", text := some ("axb"), created_at := "C1" }] ∧
    containsCI ("axb") ("a_b") = false ∧
    (listMessages { limit := 10, offset := 0, from_ := none, since := none, q := some ("HELLO") }
        [{ message_id := "m1", from_msisdn := "+1", to_msisdn := "+2", ts := "T1", text := some ("say hello"), created_at := "C1" },
         { message_id := "m2", from_msisdn := "+1", to_msisdn := "+2", ts := "T1", text := none, created_at := "C1" }]).1 =
      [{ message_id := "m1", from_ := "+1", to_ := "+2", ts := "T1", text := some ("say hello"), created_at := "C1" }] ∧
    containsCI ("say hello") ("HELLO") = true := by
  refine ⟨?_, by decide, ?_, by decide⟩ <;> decide
